import Mathlib

/-!
Verification development for the `parut` task-queue subsystem.

Shallow embedding of `src/task_queue.rs` (task data model, queue operations,
scheduler worker finalization) and of the poll loop of
`ParuBackend::run_paru_in_terminal` in `src/paru.rs`.

Modelling conventions:
* Rust `usize` / `u64` are modelled as `Nat` (the program never relies on
  wrap-around for these values).
* Rust `f64` is modelled as `ℚ`.  This is exact on every terminating decimal
  literal and every division appearing in the claims below.  Known
  divergences, none of which a claim depends on: `f64` division by zero
  yields an infinity where `ℚ` yields `0`; the exotic literal forms accepted
  by `f64::from_str` (exponents, infinities, not-a-number) are not modelled.
* Rust `String`s are modelled as `String` and scanned at `Char` level.  Byte
  indices and character indices coincide on ASCII text; on non-ASCII text the
  Rust code can panic on a byte-boundary slice (`before[num_start + 1..]`
  when the character before a digit run is multi-byte), which the character
  model does not reproduce, so theorems about the percentage heuristic carry
  an ASCII-ness hypothesis for that character.
* The mutex around the queue is left implicit: every Rust method that takes
  the lock, mutates and releases becomes a pure function from queue state to
  queue state.  Reads of `crate::settings::get()` become explicit parameters
  (`cap` for `task_output_lines_limit`, `now` for the sampled system clock,
  `minutes` for the auto-clear retention).
* The UI `update_callback` has no effect on queue state and is omitted.
-/

namespace Parut

/-- `TaskType` from `src/task_queue.rs`. -/
inductive TaskType where
  | Install
  | Remove
  | Update
  | UpdatePackage
  | CleanCache
  | RemoveOrphans
  deriving DecidableEq, Repr

/-- `TaskStatus` from `src/task_queue.rs`; `Failed` carries the error text. -/
inductive TaskStatus where
  | Queued
  | Running
  | Completed
  | Canceled
  | Failed (msg : String)
  deriving DecidableEq, Repr

/-- `matches!(status, Completed | Canceled | Failed(_))`. -/
def isTerminal : TaskStatus → Bool
  | .Completed => true
  | .Canceled => true
  | .Failed _ => true
  | _ => false

/-- `matches!(status, Failed(_))`. -/
def isFailed : TaskStatus → Bool
  | .Failed _ => true
  | _ => false

/-- The `Task` struct from `src/task_queue.rs`. -/
structure Task where
  id : Nat
  task_type : TaskType
  package_name : String
  status : TaskStatus
  output : List String
  progress : Option ℚ
  phase : Option String
  started_at_unix : Option Nat
  finished_at_unix : Option Nat
  deriving DecidableEq, Repr

/-- `Task::new`: a fresh task starts `Queued` with empty buffers. -/
def Task.new (id : Nat) (task_type : TaskType) (package_name : String) : Task :=
  { id := id
    task_type := task_type
    package_name := package_name
    status := .Queued
    output := []
    progress := none
    phase := none
    started_at_unix := none
    finished_at_unix := none }

/-- The `TaskQueue` state: the task vector, the id allocator and the
pending-cancellation set (`HashSet<usize>` modelled as `Finset ℕ`). -/
structure TaskQueue where
  tasks : List Task
  next_id : Nat
  cancel_requested : Finset Nat
  deriving DecidableEq

/-! ### Small list helpers mirroring `Vec` operations

These mirror Rust `Vec` indexing, `swap`, `remove`, `insert` and the
find-first-and-mutate pattern used throughout `task_queue.rs`. -/

/-- `Vec` indexing, `l[n]` as an `Option`. -/
def nth {α : Type _} : List α → Nat → Option α
  | [], _ => none
  | a :: _, 0 => some a
  | _ :: l, n + 1 => nth l n

/-- Replace the element at an index (no-op when out of range). -/
def setAt {α : Type _} : List α → Nat → α → List α
  | [], _, _ => []
  | _ :: l, 0, b => b :: l
  | a :: l, n + 1, b => a :: setAt l n b

/-- `Vec::swap i j` (no-op when an index is out of range; in the queue code
both indices always come from successful position searches). -/
def swapAt {α : Type _} (l : List α) (i j : Nat) : List α :=
  match nth l i, nth l j with
  | some a, some b => setAt (setAt l i b) j a
  | _, _ => l

/-- `Vec::remove i` (the Rust version panics out of range; the queue code
only calls it with a found index). -/
def eraseAt {α : Type _} : List α → Nat → List α
  | [], _ => []
  | _ :: l, 0 => l
  | a :: l, n + 1 => a :: eraseAt l n

/-- `Vec::insert i a` (the Rust version panics when `i` exceeds the length;
the queue code only calls it with `i` at most the current length). -/
def insertAt {α : Type _} : Nat → α → List α → List α
  | 0, a, l => a :: l
  | _ + 1, a, [] => [a]
  | n + 1, a, b :: l => b :: insertAt n a l

/-- `Iterator::position`: index of the first element satisfying `p`. -/
def firstIdx? {α : Type _} (p : α → Bool) : List α → Option Nat
  | [] => none
  | a :: l => if p a then some 0 else (firstIdx? p l).map (· + 1)

/-- `str::rfind` over a character list: index of the last element
satisfying `p`. -/
def rfindIdx? (p : Char → Bool) (l : List Char) : Option Nat :=
  (firstIdx? p l.reverse).map (fun i => l.length - 1 - i)

/-- `iter_mut().find(p)` followed by a mutation `f` of the found element:
rewrite the first element satisfying `p`. -/
def modifyFirst {α : Type _} (p : α → Bool) (f : α → α) : List α → List α
  | [] => []
  | a :: l => if p a then f a :: l else a :: modifyFirst p f l

/-! ### The progress/phase parser (`TaskQueue::parse_progress`, `parse_phase`) -/

/-- Numeric value of a digit string. -/
def digitsVal (l : List Char) : Nat :=
  l.foldl (fun a c => a * 10 + (c.toNat - '0'.toNat)) 0

/-- All characters are ASCII digits. -/
def allDigits (l : List Char) : Bool :=
  l.all Char.isDigit

/-- `str::parse::<f64>` modelled on `ℚ`, for the plain decimal forms
`[+|-] digits [. digits]` (at least one digit required).  Exponent,
infinity and not-a-number forms are not modelled (see the header note);
no input exercised by the claims uses them. -/
def parseDecimal (s : List Char) : Option ℚ :=
  let core : List Char → Option ℚ := fun r =>
    match firstIdx? (· == '.') r with
    | none =>
      if !r.isEmpty && allDigits r then some (digitsVal r : ℚ) else none
    | some i =>
      let ip := r.take i
      let fp := r.drop (i + 1)
      if allDigits ip && allDigits fp && (!ip.isEmpty || !fp.isEmpty) then
        some ((digitsVal ip : ℚ) + (digitsVal fp : ℚ) / (10 : ℚ) ^ fp.length)
      else none
  match s with
  | '+' :: r => core r
  | '-' :: r => (core r).map (fun q => -q)
  | r => core r

/-- First branch of `parse_progress`: `"downloading... 45%"`-style lines.
Locates the first `%`, scans back from it over digits/periods (via `rfind`
of a non-run character), parses the run and divides by 100.  Any failure
falls through (to the fraction branch), exactly as the nested `if let`s
in the Rust code do. -/
def percentProgress (line : List Char) : Option ℚ :=
  match firstIdx? (· == '%') line with
  | none => none
  | some pct =>
    let before := line.take pct
    match rfindIdx? (fun c => !c.isDigit && c != '.') before with
    | none => none
    | some num_start =>
      match parseDecimal (before.drop (num_start + 1)) with
      | some pctVal => some (pctVal / 100)
      | none => none

/-- Second branch of `parse_progress`: `"(1/4) checking keys..."`-style
lines.  The Rust code slices `line[start + 1..end]` with the byte indices
of the first `(` and the first `)`; when the first `)` precedes the first
`(` that slice panics, while this model yields the empty segment (no claim
depends on such a line). -/
def fractionProgress (line : List Char) : Option ℚ :=
  if line.contains '(' && line.contains '/' && line.contains ')' then
    match firstIdx? (· == '(') line, firstIdx? (· == ')') line with
    | some bOpen, some bClose =>
      let nums := (line.take bClose).drop (bOpen + 1)
      match firstIdx? (· == '/') nums with
      | some slash =>
        match parseDecimal (nums.take slash), parseDecimal (nums.drop (slash + 1)) with
        | some current, some total => some (current / total)
        | _, _ => none
      | none => none
    | _, _ => none
  else none

/-- `TaskQueue::parse_progress`: percentage heuristic first, then
parenthesized fraction, else `none`. -/
def parse_progress (line : String) : Option ℚ :=
  match percentProgress line.data with
  | some p => some p
  | none => fractionProgress line.data

/-- `pat` occurs as a prefix of `hay`. -/
def listStartsWith : List Char → List Char → Bool
  | [], _ => true
  | _ :: _, [] => false
  | c :: cs, h :: hs => c == h && listStartsWith cs hs

/-- `pat` occurs as a contiguous substring of `hay`
(`str::contains` on the already-lowercased line). -/
def listContainsSub (pat : List Char) : List Char → Bool
  | [] => pat.isEmpty
  | h :: hs => listStartsWith pat (h :: hs) || listContainsSub pat hs

/-- Case-insensitive substring test: the line is lowercased once (ASCII
lowercasing; the Rust Unicode lowercasing agrees on ASCII and every table
entry is ASCII). -/
def containsLower (l : List Char) (pat : String) : Bool :=
  listContainsSub pat.data l

/-- `TaskQueue::parse_phase`: fixed ordered table of substring matches on
the lowercased line; first match wins. -/
def parse_phase (line : String) : Option String :=
  let l := line.data.map Char.toLower
  if containsLower l "resolving dependencies" then some "Resolving dependencies"
  else if containsLower l "checking keys" then some "Checking keys"
  else if containsLower l "checking package integrity" then some "Verifying package integrity"
  else if containsLower l "loading package files" then some "Loading package files"
  else if containsLower l "checking for file conflicts" then some "Checking file conflicts"
  else if containsLower l "downloading" || containsLower l "retrieving" then some "Downloading"
  else if containsLower l "building" || containsLower l "makepkg" then some "Building"
  else if containsLower l "installing" || containsLower l "upgrading" then some "Installing"
  else if containsLower l "removing" then some "Removing"
  else none

/-! ### Queue operations (`impl TaskQueue`) -/

/-- `TaskQueue::new`. -/
def TaskQueue.new : TaskQueue :=
  { tasks := [], next_id := 0, cancel_requested := ∅ }

/-- `TaskQueue::add_task`: allocate the next id, bump the allocator, append
a fresh `Queued` task at the tail; returns the id. -/
def add_task (s : TaskQueue) (task_type : TaskType) (package_name : String) :
    Nat × TaskQueue :=
  (s.next_id,
    { s with
      next_id := s.next_id + 1
      tasks := s.tasks ++ [Task.new s.next_id task_type package_name] })

/-- The field updates `update_task_status` applies before writing the new
status: entering `Running` stamps `started_at`, sets the "Preparing" phase
and clears `finished_at`; entering a terminal status stamps `finished_at`. -/
def statusFields (now : Nat) (st : TaskStatus) (t : Task) : Task :=
  let t1 :=
    if st = TaskStatus.Running then
      { t with
        started_at_unix := some now
        phase := some "Preparing"
        finished_at_unix := none }
    else if isTerminal st then { t with finished_at_unix := some now }
    else t
  { t1 with status := st }

/-- `TaskQueue::update_task_status` (the sampled clock is the `now`
parameter). -/
def update_task_status (now : Nat) (task_id : Nat) (st : TaskStatus)
    (s : TaskQueue) : TaskQueue :=
  { s with tasks := modifyFirst (fun t => t.id == task_id) (statusFields now st) s.tasks }

/-- The per-task effect of `TaskQueue::append_output`: record any parsed
progress/phase, push the line, then drain the oldest lines down to
`cap.max(50)` (`cap` models `settings::get().task_output_lines_limit`). -/
def appendLine (cap : Nat) (line : String) (t : Task) : Task :=
  let t1 :=
    match parse_progress line with
    | some p => { t with progress := some p }
    | none => t
  let t2 :=
    match parse_phase line with
    | some ph => { t1 with phase := some ph }
    | none => t1
  let out := t2.output ++ [line]
  let limit := max cap 50
  let out2 := if out.length > limit then out.drop (out.length - limit) else out
  { t2 with output := out2 }

/-- `TaskQueue::append_output`. -/
def append_output (cap : Nat) (task_id : Nat) (line : String) (s : TaskQueue) :
    TaskQueue :=
  { s with tasks := modifyFirst (fun t => t.id == task_id) (appendLine cap line) s.tasks }

/-- `TaskQueue::clear_completed`: drop every terminal task. -/
def clear_completed (s : TaskQueue) : TaskQueue :=
  { s with tasks := s.tasks.filter (fun t => !isTerminal t.status) }

/-- The mutation `claim_next_queued_task` applies to the claimed task. -/
def claimFields (now : Nat) (t : Task) : Task :=
  { t with
    started_at_unix := some now
    phase := some "Preparing"
    finished_at_unix := none
    status := TaskStatus.Running }

/-- `TaskQueue::claim_next_queued_task`: find the first `Queued` task, stamp
`started_at`, set phase "Preparing", clear `finished_at`, mark it `Running`
and return a clone; `none` (and no mutation) when nothing is `Queued`.
The single mutable traversal of the Rust code is modelled as a `find?`
returning the witness plus a first-match rewrite with the same predicate. -/
def claim_next_queued_task (now : Nat) (s : TaskQueue) : Option Task × TaskQueue :=
  match s.tasks.find? (fun t => t.status == TaskStatus.Queued) with
  | none => (none, s)
  | some t =>
    (some (claimFields now t),
      { s with tasks := modifyFirst (fun u => u.status == TaskStatus.Queued) (claimFields now) s.tasks })

/-- `TaskQueue::running_count`. -/
def running_count (s : TaskQueue) : Nat :=
  (s.tasks.filter (fun t => t.status == TaskStatus.Running)).length

/-- `TaskQueue::cancel_queued_task`: `retain` everything except a `Queued`
task with the given id; report whether the length changed. -/
def cancel_queued_task (task_id : Nat) (s : TaskQueue) : Bool × TaskQueue :=
  let ts := s.tasks.filter (fun t => !(t.id == task_id && t.status == TaskStatus.Queued))
  (ts.length != s.tasks.length, { s with tasks := ts })

/-- `(0..idx).rev().find(|i| tasks[i].status == Queued)`. -/
def prevQueuedIdx (ts : List Task) (idx : Nat) : Option Nat :=
  (List.range idx).reverse.find? (fun i =>
    match nth ts i with
    | some t => t.status == TaskStatus.Queued
    | none => false)

/-- `((idx + 1)..len).find(|i| tasks[i].status == Queued)`. -/
def nextQueuedIdx (ts : List Task) (idx : Nat) : Option Nat :=
  (List.range ts.length).find? (fun i =>
    decide (idx < i) &&
      match nth ts i with
      | some t => t.status == TaskStatus.Queued
      | none => false)

/-- `TaskQueue::move_queued_task_up`: swap a `Queued` task with its nearest
earlier `Queued` neighbour. -/
def move_queued_task_up (task_id : Nat) (s : TaskQueue) : Bool × TaskQueue :=
  match firstIdx? (fun t => t.id == task_id && t.status == TaskStatus.Queued) s.tasks with
  | none => (false, s)
  | some idx =>
    match prevQueuedIdx s.tasks idx with
    | none => (false, s)
    | some prev => (true, { s with tasks := swapAt s.tasks idx prev })

/-- `TaskQueue::move_queued_task_down`: swap a `Queued` task with its nearest
later `Queued` neighbour. -/
def move_queued_task_down (task_id : Nat) (s : TaskQueue) : Bool × TaskQueue :=
  match firstIdx? (fun t => t.id == task_id && t.status == TaskStatus.Queued) s.tasks with
  | none => (false, s)
  | some idx =>
    match nextQueuedIdx s.tasks idx with
    | none => (false, s)
    | some next => (true, { s with tasks := swapAt s.tasks idx next })

/-- `TaskQueue::run_queued_task_now`: move a `Queued` task to the position of
the first `Queued` task; a no-op failure when it already is that task. -/
def run_queued_task_now (task_id : Nat) (s : TaskQueue) : Bool × TaskQueue :=
  match firstIdx? (fun t => t.id == task_id && t.status == TaskStatus.Queued) s.tasks with
  | none => (false, s)
  | some idx =>
    match firstIdx? (fun t => t.status == TaskStatus.Queued) s.tasks with
    | none => (false, s)
    | some first_queued =>
      if idx = first_queued then (false, s)
      else
        match nth s.tasks idx with
        | some t =>
          (true, { s with tasks := insertAt first_queued t (eraseAt s.tasks idx) })
        | none => (false, s)

/-- `TaskQueue::request_cancel`: only against a `Running` task; records the
id in the pending set and appends the synthetic status line. -/
def request_cancel (cap : Nat) (task_id : Nat) (s : TaskQueue) : Bool × TaskQueue :=
  if s.tasks.any (fun t => t.id == task_id && t.status == TaskStatus.Running) then
    (true,
      append_output cap task_id "Cancellation requested..."
        { s with cancel_requested := insert task_id s.cancel_requested })
  else (false, s)

/-- `TaskQueue::is_cancel_requested`. -/
def is_cancel_requested (task_id : Nat) (s : TaskQueue) : Bool :=
  decide (task_id ∈ s.cancel_requested)

/-- `TaskQueue::take_cancel_request`: `HashSet::remove`, reporting whether
the id was present. -/
def take_cancel_request (task_id : Nat) (s : TaskQueue) : Bool × TaskQueue :=
  (decide (task_id ∈ s.cancel_requested),
    { s with cancel_requested := s.cancel_requested.erase task_id })

/-- `TaskQueue::auto_clear_by_settings` (`now` is the sampled clock,
`minutes` the configured retention; 0 disables). -/
def auto_clear_by_settings (now minutes : Nat) (s : TaskQueue) : TaskQueue :=
  if minutes = 0 then s
  else
    let cutoff := now - minutes * 60
    { s with
      tasks := s.tasks.filter (fun t =>
        if !isTerminal t.status then true
        else
          match t.finished_at_unix with
          | some done => decide (cutoff ≤ done)
          | none => true) }

/-- `TaskQueue::retry_failed_task`: look the id up; only when the task is
`Failed` enqueue a fresh task with the same kind and target. -/
def retry_failed_task (task_id : Nat) (s : TaskQueue) : Option Nat × TaskQueue :=
  match s.tasks.find? (fun t => t.id == task_id) with
  | none => (none, s)
  | some t =>
    match t.status with
    | TaskStatus.Failed _ =>
      let r := add_task s t.task_type t.package_name
      (some r.1, r.2)
    | _ => (none, s)

/-! ### Scheduler worker and engine poll loop
(`TaskWorker::start` in `src/task_queue.rs`,
`ParuBackend::run_paru_in_terminal` in `src/paru.rs`) -/

/-- One `child.try_wait()` outcome inside the engine poll loop:
still running, exited (with success flag), or a wait error. -/
inductive WaitObs where
  | running
  | exited (success : Bool)
  | waitErr (msg : String)
  deriving DecidableEq, Repr

/-- One iteration of the engine poll loop as observed by the executing
thread: the value the `cancel_requested` closure returned at the top of the
iteration, then the `try_wait` outcome. -/
structure PollObs where
  cancel : Bool
  wait : WaitObs
  deriving DecidableEq, Repr

/-- The poll loop of `run_paru_in_terminal` after a successful spawn, over a
trace of per-iteration observations: a pending cancellation seen at the top
of an iteration kills the child and reports the cancellation error without
consulting the exit status; otherwise the exit status (when available)
decides success/failure; otherwise the loop sleeps and continues.  `none`
means the trace ended with the loop still polling. -/
def runLoop : List PollObs → Option (Except String Unit)
  | [] => none
  | o :: rest =>
    if o.cancel then some (Except.error "Task canceled by user")
    else
      match o.wait with
      | .exited true => some (Except.ok ())
      | .exited false => some (Except.error "Operation failed - check terminal output")
      | .waitErr e => some (Except.error ("Failed to wait for terminal: " ++ e))
      | .running => runLoop rest

/-- The finalization step of the per-task thread spawned in
`TaskWorker::start`: success finalizes `Completed` (the pending-cancellation
set is not consulted); an error consumes any pending cancellation exactly
once and finalizes `Canceled` when one was pending, else `Failed`. -/
def worker_finalize (now : Nat) (task_id : Nat) (result : Except String Unit)
    (s : TaskQueue) : TaskQueue :=
  match result with
  | .ok _ => update_task_status now task_id TaskStatus.Completed s
  | .error e =>
    let r := take_cancel_request task_id s
    if r.1 then update_task_status now task_id TaskStatus.Canceled r.2
    else update_task_status now task_id (TaskStatus.Failed e) r.2

/-- Status of the first task with a given id, as a snapshot reader sees it. -/
def statusOf (s : TaskQueue) (task_id : Nat) : Option TaskStatus :=
  (s.tasks.find? (fun t => t.id == task_id)).map (fun t => t.status)

/-! ### The queue operations as a single step type

Used to quantify over arbitrary interleavings of queue operations between
two enqueues (claim C6). -/

/-- Every state-mutating queue operation, with its sampled clock /
configuration reads as explicit arguments. -/
inductive QOp where
  | add (task_type : TaskType) (package_name : String)
  | updateStatus (now task_id : Nat) (st : TaskStatus)
  | appendOut (cap task_id : Nat) (line : String)
  | clearCompleted
  | claim (now : Nat)
  | cancelQueued (task_id : Nat)
  | moveUp (task_id : Nat)
  | moveDown (task_id : Nat)
  | runNow (task_id : Nat)
  | requestCancel (cap task_id : Nat)
  | takeCancel (task_id : Nat)
  | autoClear (now minutes : Nat)
  | retry (task_id : Nat)
  | finalize (now task_id : Nat) (result : Except String Unit)

/-- State effect of one queue operation. -/
def applyOp (op : QOp) (s : TaskQueue) : TaskQueue :=
  match op with
  | .add tt name => (add_task s tt name).2
  | .updateStatus now id st => update_task_status now id st s
  | .appendOut cap id line => append_output cap id line s
  | .clearCompleted => clear_completed s
  | .claim now => (claim_next_queued_task now s).2
  | .cancelQueued id => (cancel_queued_task id s).2
  | .moveUp id => (move_queued_task_up id s).2
  | .moveDown id => (move_queued_task_down id s).2
  | .runNow id => (run_queued_task_now id s).2
  | .requestCancel cap id => (request_cancel cap id s).2
  | .takeCancel id => (take_cancel_request id s).2
  | .autoClear now minutes => auto_clear_by_settings now minutes s
  | .retry id => (retry_failed_task id s).2
  | .finalize now id res => worker_finalize now id res s

/-- The id-allocation invariant: every task id in the queue is below the
allocator. It holds for `TaskQueue::new` and is preserved by every
operation. -/
def Inv (s : TaskQueue) : Prop :=
  ∀ t ∈ s.tasks, t.id < s.next_id

instance (s : TaskQueue) : Decidable (Inv s) :=
  inferInstanceAs (Decidable (∀ t ∈ s.tasks, t.id < s.next_id))

/-! ### Lemmas about the list helpers -/

theorem nth_mem {α : Type _} : ∀ {l : List α} {n : Nat} {a : α}, nth l n = some a → a ∈ l
  | [], _, _, h => by simp [nth] at h
  | b :: l, 0, a, h => by
    simp [nth] at h
    exact h ▸ List.mem_cons_self b l
  | b :: l, n + 1, a, h => by
    simp only [nth] at h
    exact List.mem_cons_of_mem b (nth_mem h)

theorem mem_eraseAt {α : Type _} : ∀ {l : List α} {n : Nat} {a : α}, a ∈ eraseAt l n → a ∈ l
  | [], _, _, h => by simp [eraseAt] at h
  | b :: l, 0, a, h => by
    simp only [eraseAt] at h
    exact List.mem_cons_of_mem b h
  | b :: l, n + 1, a, h => by
    simp only [eraseAt, List.mem_cons] at h
    rcases h with h | h
    · exact h ▸ List.mem_cons_self b l
    · exact List.mem_cons_of_mem b (mem_eraseAt h)

theorem mem_insertAt {α : Type _} :
    ∀ {n : Nat} {x : α} {l : List α} {a : α}, a ∈ insertAt n x l → a = x ∨ a ∈ l
  | 0, x, l, a, h => by
    simp only [insertAt, List.mem_cons] at h
    exact h
  | n + 1, x, [], a, h => by
    simp [insertAt] at h
    exact Or.inl h
  | n + 1, x, b :: l, a, h => by
    simp only [insertAt, List.mem_cons] at h
    rcases h with h | h
    · exact Or.inr (h ▸ List.mem_cons_self b l)
    · rcases mem_insertAt h with h | h
      · exact Or.inl h
      · exact Or.inr (List.mem_cons_of_mem b h)

theorem mem_setAt {α : Type _} :
    ∀ {l : List α} {n : Nat} {b a : α}, a ∈ setAt l n b → a = b ∨ a ∈ l
  | [], _, _, _, h => by simp [setAt] at h
  | c :: l, 0, b, a, h => by
    simp only [setAt, List.mem_cons] at h
    rcases h with h | h
    · exact Or.inl h
    · exact Or.inr (List.mem_cons_of_mem c h)
  | c :: l, n + 1, b, a, h => by
    simp only [setAt, List.mem_cons] at h
    rcases h with h | h
    · exact Or.inr (h ▸ List.mem_cons_self c l)
    · rcases mem_setAt h with h | h
      · exact Or.inl h
      · exact Or.inr (List.mem_cons_of_mem c h)

theorem cons_setAt_perm {α : Type _} (a : α) :
    ∀ (l : List α) (n : Nat) (b : α), nth l n = some b →
      List.Perm (b :: setAt l n a) (a :: l)
  | [], n, b, h => by simp [nth] at h
  | c :: l, 0, b, h => by
    simp only [nth, Option.some.injEq] at h
    subst h
    simpa [setAt] using List.Perm.swap a c l
  | c :: l, n + 1, b, h => by
    simp only [nth] at h
    have h1 : setAt (c :: l) (n + 1) a = c :: setAt l n a := rfl
    rw [h1]
    exact (List.Perm.swap c b _).trans
      (((cons_setAt_perm a l n b h).cons c).trans (List.Perm.swap a c l))

theorem swapAt_perm {α : Type _} : ∀ (l : List α) (i j : Nat),
    List.Perm (swapAt l i j) l
  | [], i, j => by simp [swapAt, nth]
  | c :: l, 0, 0 => by simp [swapAt, nth, setAt]
  | c :: l, 0, m + 1 => by
    unfold swapAt
    simp only [nth]
    cases h : nth l m with
    | none => exact List.Perm.refl _
    | some b => simpa [setAt] using cons_setAt_perm c l m b h
  | c :: l, k + 1, 0 => by
    unfold swapAt
    simp only [nth]
    cases h : nth l k with
    | none => exact List.Perm.refl _
    | some a => simpa [setAt] using cons_setAt_perm c l k a h
  | c :: l, k + 1, m + 1 => by
    unfold swapAt
    simp only [nth]
    cases h1 : nth l k with
    | none => exact List.Perm.refl _
    | some a =>
      cases h2 : nth l m with
      | none => exact List.Perm.refl _
      | some b =>
        have ih := swapAt_perm l k m
        unfold swapAt at ih
        rw [h1, h2] at ih
        simpa [setAt] using ih.cons c

theorem insertAt_perm {α : Type _} :
    ∀ (n : Nat) (a : α) (l : List α), List.Perm (insertAt n a l) (a :: l)
  | 0, _, _ => List.Perm.refl _
  | _ + 1, _, [] => List.Perm.refl _
  | n + 1, a, b :: l =>
    ((insertAt_perm n a l).cons b).trans (List.Perm.swap a b l)

theorem eraseAt_cons_perm {α : Type _} :
    ∀ {l : List α} {n : Nat} {a : α}, nth l n = some a →
      List.Perm (a :: eraseAt l n) l
  | [], n, a, h => by simp [nth] at h
  | b :: l, 0, a, h => by
    simp only [nth, Option.some.injEq] at h
    subst h
    exact List.Perm.refl _
  | b :: l, n + 1, a, h => by
    simp only [nth] at h
    have h1 : eraseAt (b :: l) (n + 1) = b :: eraseAt l n := rfl
    rw [h1]
    exact (List.Perm.swap b a _).trans ((eraseAt_cons_perm h).cons b)

theorem mem_modifyFirst {α : Type _} (p : α → Bool) (f : α → α) :
    ∀ {l : List α} {a : α}, a ∈ modifyFirst p f l → a ∈ l ∨ ∃ b ∈ l, a = f b
  | [], a, h => by simp [modifyFirst] at h
  | b :: l, a, h => by
    simp only [modifyFirst] at h
    by_cases hb : p b = true
    · rw [if_pos hb] at h
      rcases List.mem_cons.mp h with h | h
      · exact Or.inr ⟨b, List.mem_cons_self b l, h⟩
      · exact Or.inl (List.mem_cons_of_mem b h)
    · rw [if_neg hb] at h
      rcases List.mem_cons.mp h with h | h
      · exact Or.inl (h ▸ List.mem_cons_self b l)
      · rcases mem_modifyFirst p f h with h2 | ⟨c, hc, hfc⟩
        · exact Or.inl (List.mem_cons_of_mem b h2)
        · exact Or.inr ⟨c, List.mem_cons_of_mem b hc, hfc⟩

theorem modifyFirst_append_cons {α : Type _} (p : α → Bool) (f : α → α)
    {t : α} (post : List α) (ht : p t = true) :
    ∀ (pre : List α), (∀ u ∈ pre, p u = false) →
      modifyFirst p f (pre ++ t :: post) = pre ++ f t :: post := by
  intro pre
  induction pre with
  | nil =>
    intro _
    simp only [List.nil_append, modifyFirst]
    rw [if_pos ht]
  | cons b pre ih =>
    intro hpre
    have hb : p b = false := hpre b (List.mem_cons_self b pre)
    simp only [List.cons_append, modifyFirst, List.append_eq]
    rw [if_neg (by simp [hb]), ih (fun u hu => hpre u (List.mem_cons_of_mem b hu))]

theorem find?_append_cons {α : Type _} (p : α → Bool)
    {t : α} (post : List α) (ht : p t = true) :
    ∀ (pre : List α), (∀ u ∈ pre, p u = false) →
      (pre ++ t :: post).find? p = some t := by
  intro pre
  induction pre with
  | nil =>
    intro _
    rw [List.nil_append]
    exact List.find?_cons_of_pos _ ht
  | cons b pre ih =>
    intro hpre
    have hb : p b = false := hpre b (List.mem_cons_self b pre)
    rw [List.cons_append, List.find?_cons_of_neg _ (by simp [hb])]
    exact ih (fun u hu => hpre u (List.mem_cons_of_mem b hu))

theorem firstIdx?_append_cons {α : Type _} (p : α → Bool)
    {t : α} (post : List α) (ht : p t = true) :
    ∀ (pre : List α), (∀ u ∈ pre, p u = false) →
      firstIdx? p (pre ++ t :: post) = some pre.length := by
  intro pre
  induction pre with
  | nil =>
    intro _
    simp only [List.nil_append, firstIdx?]
    rw [if_pos ht]
    rfl
  | cons b pre ih =>
    intro hpre
    have hb : p b = false := hpre b (List.mem_cons_self b pre)
    simp only [List.cons_append, firstIdx?, List.append_eq]
    rw [if_neg (by simp [hb]), ih (fun u hu => hpre u (List.mem_cons_of_mem b hu))]
    rfl

theorem firstIdx?_eq_none {α : Type _} (p : α → Bool) :
    ∀ {l : List α}, (∀ u ∈ l, p u = false) → firstIdx? p l = none
  | [], _ => rfl
  | b :: l, h => by
    have hb : p b = false := h b (List.mem_cons_self b l)
    simp only [firstIdx?]
    rw [if_neg (by simp [hb]),
      firstIdx?_eq_none p (fun u hu => h u (List.mem_cons_of_mem b hu))]
    rfl

theorem take_length_append {α : Type _} : ∀ (xs ys : List α), (xs ++ ys).take xs.length = xs
  | [], _ => rfl
  | x :: xs, ys => by
    simp only [List.cons_append, List.length_cons, List.take_succ_cons, List.cons.injEq, true_and]
    exact take_length_append xs ys

theorem drop_length_append {α : Type _} : ∀ (xs ys : List α), (xs ++ ys).drop xs.length = ys
  | [], _ => rfl
  | x :: xs, ys => by
    simp only [List.cons_append, List.length_cons, List.drop_succ_cons]
    exact drop_length_append xs ys

theorem find?_modifyFirst {α : Type _} (p : α → Bool) (f : α → α) :
    ∀ {l : List α} {t : α}, l.find? p = some t → p (f t) = true →
      (modifyFirst p f l).find? p = some (f t)
  | [], t, h, _ => by simp at h
  | b :: l, t, h, hf => by
    by_cases hb : p b = true
    · rw [List.find?_cons_of_pos _ hb, Option.some.injEq] at h
      subst h
      simp only [modifyFirst]
      rw [if_pos hb]
      exact List.find?_cons_of_pos _ hf
    · rw [List.find?_cons_of_neg _ hb] at h
      simp only [modifyFirst]
      rw [if_neg hb, List.find?_cons_of_neg _ hb]
      exact find?_modifyFirst p f h hf

/-! ### Field-preservation facts -/

theorem statusFields_id (now : Nat) (st : TaskStatus) (t : Task) :
    (statusFields now st t).id = t.id := by
  unfold statusFields
  by_cases h1 : st = TaskStatus.Running
  · simp [h1]
  · by_cases h2 : isTerminal st <;> simp [h1, h2]

theorem claimFields_id (now : Nat) (t : Task) : (claimFields now t).id = t.id := rfl

theorem appendLine_id (cap : Nat) (line : String) (t : Task) :
    (appendLine cap line t).id = t.id := by
  unfold appendLine
  cases parse_progress line <;> cases parse_phase line <;> simp

theorem appendLine_output (cap : Nat) (line : String) (t : Task) :
    (appendLine cap line t).output =
      (if (t.output ++ [line]).length > max cap 50 then
        (t.output ++ [line]).drop ((t.output ++ [line]).length - max cap 50)
      else t.output ++ [line]) := by
  unfold appendLine
  cases parse_progress line <;> cases parse_phase line <;> simp

/-! ### Preservation of the id-allocation invariant -/

theorem perm_inv {s : TaskQueue} {ts : List Task} (h : Inv s)
    (hp : List.Perm ts s.tasks) : Inv { s with tasks := ts } :=
  fun t ht => h t (hp.mem_iff.mp ht)

theorem modifyFirst_inv {p : Task → Bool} {f : Task → Task}
    (hf : ∀ t : Task, (f t).id = t.id) {s : TaskQueue} (h : Inv s) :
    Inv { s with tasks := modifyFirst p f s.tasks } := by
  intro t ht
  simp only at ht ⊢
  rcases mem_modifyFirst p f ht with h1 | ⟨b, hb, rfl⟩
  · exact h t h1
  · rw [hf b]
    exact h b hb

theorem filter_inv {p : Task → Bool} {s : TaskQueue} (h : Inv s) :
    Inv { s with tasks := s.tasks.filter p } := by
  intro t ht
  exact h t (List.mem_filter.mp ht).1

theorem add_task_inv (tt : TaskType) (name : String) {s : TaskQueue} (h : Inv s) :
    Inv (add_task s tt name).2 := by
  intro t ht
  simp only [add_task] at ht ⊢
  rcases List.mem_append.mp ht with h1 | h1
  · exact Nat.lt_succ_of_lt (h t h1)
  · simp only [List.mem_singleton] at h1
    subst h1
    exact Nat.lt_succ_self _

theorem applyOp_next_id_le (op : QOp) (s : TaskQueue) :
    s.next_id ≤ (applyOp op s).next_id := by
  cases op with
  | add tt name => exact Nat.le_succ _
  | updateStatus now id st => exact Nat.le_refl _
  | appendOut cap id line => exact Nat.le_refl _
  | clearCompleted => exact Nat.le_refl _
  | claim now =>
    simp only [applyOp, claim_next_queued_task]
    cases s.tasks.find? (fun t => t.status == TaskStatus.Queued) <;> exact Nat.le_refl _
  | cancelQueued id => exact Nat.le_refl _
  | moveUp id =>
    simp only [applyOp, move_queued_task_up]
    repeat' split
    all_goals exact Nat.le_refl _
  | moveDown id =>
    simp only [applyOp, move_queued_task_down]
    repeat' split
    all_goals exact Nat.le_refl _
  | runNow id =>
    simp only [applyOp, run_queued_task_now]
    repeat' split
    all_goals exact Nat.le_refl _
  | requestCancel cap id =>
    simp only [applyOp, request_cancel]
    split <;> exact Nat.le_refl _
  | takeCancel id => exact Nat.le_refl _
  | autoClear now minutes =>
    simp only [applyOp, auto_clear_by_settings]
    split <;> exact Nat.le_refl _
  | retry id =>
    simp only [applyOp, retry_failed_task]
    repeat' split
    all_goals first
      | exact Nat.le_succ _
      | exact Nat.le_refl _
  | finalize now id res =>
    cases res with
    | ok u => exact Nat.le_refl _
    | error e =>
      simp only [applyOp, worker_finalize]
      split <;> exact Nat.le_refl _

theorem applyOp_inv (op : QOp) {s : TaskQueue} (h : Inv s) : Inv (applyOp op s) := by
  cases op with
  | add tt name => exact add_task_inv tt name h
  | updateStatus now id st => exact modifyFirst_inv (statusFields_id now st) h
  | appendOut cap id line => exact modifyFirst_inv (appendLine_id cap line) h
  | clearCompleted => exact filter_inv h
  | claim now =>
    simp only [applyOp, claim_next_queued_task]
    cases s.tasks.find? (fun t => t.status == TaskStatus.Queued) with
    | none => exact h
    | some t => exact modifyFirst_inv (claimFields_id now) h
  | cancelQueued id => exact filter_inv h
  | moveUp id =>
    simp only [applyOp, move_queued_task_up]
    repeat' split
    all_goals first
      | exact h
      | exact perm_inv h (swapAt_perm _ _ _)
  | moveDown id =>
    simp only [applyOp, move_queued_task_down]
    repeat' split
    all_goals first
      | exact h
      | exact perm_inv h (swapAt_perm _ _ _)
  | runNow id =>
    simp only [applyOp, run_queued_task_now]
    repeat' split
    all_goals first
      | exact h
      | (rename_i t heq
         exact perm_inv h ((insertAt_perm _ _ _).trans (eraseAt_cons_perm heq)))
  | requestCancel cap id =>
    simp only [applyOp, request_cancel]
    split
    · exact modifyFirst_inv (appendLine_id cap _) h
    · exact h
  | takeCancel id => exact h
  | autoClear now minutes =>
    simp only [applyOp, auto_clear_by_settings]
    split
    · exact h
    · exact filter_inv h
  | retry id =>
    simp only [applyOp, retry_failed_task]
    repeat' split
    all_goals first
      | exact h
      | exact add_task_inv _ _ h
  | finalize now id res =>
    cases res with
    | ok u => exact modifyFirst_inv (statusFields_id now _) h
    | error e =>
      simp only [applyOp, worker_finalize]
      split
      · exact modifyFirst_inv (statusFields_id now _) (s := (take_cancel_request id s).2) h
      · exact modifyFirst_inv (statusFields_id now _) (s := (take_cancel_request id s).2) h

theorem foldl_next_id_le (ops : List QOp) :
    ∀ (s : TaskQueue), s.next_id ≤ (ops.foldl (fun st op => applyOp op st) s).next_id := by
  induction ops with
  | nil => intro s; exact Nat.le_refl _
  | cons op ops ih =>
    intro s
    exact Nat.le_trans (applyOp_next_id_le op s) (ih (applyOp op s))

theorem foldl_inv (ops : List QOp) :
    ∀ {s : TaskQueue}, Inv s → Inv (ops.foldl (fun st op => applyOp op st) s) := by
  induction ops with
  | nil => intro s h; exact h
  | cons op ops ih => intro s h; exact ih (applyOp_inv op h)

/-! ### Claim C5 — the percentage heuristic -/

/-- C5, auxiliary: on a line of shape `pre ++ c :: run ++ "%" ++ rest` where
`c` is neither a digit nor a period and the run is made of digits/periods,
the backward scan from the first `%` finds exactly the run. -/
theorem percentProgress_run (pre : List Char) (c : Char) (run rest : List Char) (v : ℚ)
    (hprePct : '%' ∉ pre)
    (hcd : c.isDigit = false) (hcdot : c ≠ '.') (hcpct : c ≠ '%')
    (hrunchars : ∀ d ∈ run, d.isDigit = true ∨ d = '.')
    (hv : parseDecimal run = some v) :
    percentProgress (pre ++ c :: (run ++ '%' :: rest)) = some (v / 100) := by
  have hassoc : pre ++ c :: (run ++ '%' :: rest) = (pre ++ c :: run) ++ '%' :: rest := by
    simp
  have hnopct : ∀ u ∈ pre ++ c :: run, (u == '%') = false := by
    intro u hu
    rcases List.mem_append.mp hu with h1 | h1
    · have : u ≠ '%' := fun he => hprePct (he ▸ h1)
      simp [this]
    · rcases List.mem_cons.mp h1 with h2 | h2
      · subst h2; simp [hcpct]
      · rcases hrunchars u h2 with h3 | h3
        · have : u ≠ '%' := by
            intro he; subst he; simp at h3
          simp [this]
        · subst h3; decide
  have e1 : firstIdx? (fun x => x == '%') ((pre ++ c :: run) ++ '%' :: rest)
      = some (pre ++ c :: run).length :=
    firstIdx?_append_cons _ rest rfl _ hnopct
  have e2 : ((pre ++ c :: run) ++ '%' :: rest).take (pre ++ c :: run).length
      = pre ++ c :: run := take_length_append _ _
  have hrev : (pre ++ c :: run).reverse = run.reverse ++ c :: pre.reverse := by
    simp
  have hnrun : ∀ u ∈ run.reverse, (!u.isDigit && u != '.') = false := by
    intro u hu
    rcases hrunchars u (List.mem_reverse.mp hu) with h1 | h1
    · simp [h1]
    · subst h1; decide
  have hcnr : (!c.isDigit && c != '.') = true := by
    simp [hcd, hcdot]
  have e3 : rfindIdx? (fun x => !x.isDigit && x != '.') (pre ++ c :: run)
      = some pre.length := by
    unfold rfindIdx?
    rw [hrev, firstIdx?_append_cons (fun x => !x.isDigit && x != '.') pre.reverse hcnr
      run.reverse hnrun]
    simp only [Option.map_some', List.length_reverse]
    congr 1
    simp only [List.length_append, List.length_cons]
    omega
  have hsplit : pre ++ c :: run = (pre ++ [c]) ++ run := by simp
  have e4 : (pre ++ c :: run).drop (pre.length + 1) = run := by
    rw [hsplit]
    have : pre.length + 1 = (pre ++ [c]).length := by simp
    rw [this, drop_length_append]
  simp only [percentProgress, hassoc, e1, e2, e3, e4, hv]

/-- **C5 counterexample.**  The claim asserts the percentage heuristic fires
"including when the run begins at the start of the line"; on the line
`"45%"` the digit run starts the line, `rfind` of a non-run character fails,
the percentage branch is skipped and the parser yields nothing — not 0.45. -/
theorem C5_counterexample :
    parse_progress "45%" = none ∧ (none : Option ℚ) ≠ some (45 / 100) := by
  constructor
  · decide
  · decide

/-- **C5 (amended).**  For every output line containing a `%` whose first `%`
is immediately preceded by a nonempty maximal run of ASCII digits and
periods that parses as a decimal number and that does *not* begin at the
start of the line — there is a character `c` before the run that is neither
a digit nor a period (a single-byte character: on a multi-byte `c` the Rust
code panics slicing `before[num_start + 1..]`) — the parser returns the run
parsed as a number divided by 100.  When the run begins at the start of the
line the heuristic does not fire (see the counterexample). -/
theorem C5_percent_pattern (line : String) (pre : List Char) (c : Char)
    (run rest : List Char) (v : ℚ)
    (hline : line.data = pre ++ c :: (run ++ '%' :: rest))
    (hprePct : '%' ∉ pre)
    (hcd : c.isDigit = false) (hcdot : c ≠ '.') (hcpct : c ≠ '%')
    (hcascii : c.toNat < 128)
    (hrunchars : ∀ d ∈ run, d.isDigit = true ∨ d = '.')
    (hv : parseDecimal run = some v) :
    parse_progress line = some (v / 100) := by
  unfold parse_progress
  rw [hline, percentProgress_run pre c run rest v hprePct hcd hcdot hcpct hrunchars hv]

/-- Witness for C5: the spec's own example `"downloading... 45%"` parses to
progress 45/100 = 0.45. -/
theorem C5_percent_pattern_witness :
    parse_progress "downloading... 45%" = some (45 / 100) :=
  C5_percent_pattern "downloading... 45%" "downloading...".data ' ' "45".data [] 45
    (by decide) (by decide) (by decide) (by decide) (by decide) (by decide)
    (by decide) (by decide)

/-! ### Claim C4 — progress range -/

/-- **C4 (code bug).**  The `Task.progress` field is documented in the code
as a fraction in `[0,1]` (`// 0.0 to 1.0`) and the spec asserts the same,
but `parse_progress` never clamps: `"downloading... 500%"` parses to 5 and
`"(5/4) applying"` to 5/4, and `append_output` stores these on the task
unchanged — both outside `[0,1]`. -/
theorem C4_progress_out_of_range :
    parse_progress "downloading... 500%" = some 5 ∧
    parse_progress "(5/4) applying" = some (5 / 4) ∧
    (appendLine 200 "downloading... 500%" (Task.new 0 TaskType.Install "foo")).progress
      = some 5 ∧
    ¬ (5 : ℚ) ≤ 1 ∧ ¬ (5 / 4 : ℚ) ≤ 1 := by
  have h500 : parse_progress "downloading... 500%"
      = some ((digitsVal ['5', '0', '0'] : ℚ) / 100) := rfl
  have h54 : parse_progress "(5/4) applying"
      = some ((digitsVal ['5'] : ℚ) / (digitsVal ['4'] : ℚ)) := rfl
  have happ : (appendLine 200 "downloading... 500%"
      (Task.new 0 TaskType.Install "foo")).progress
      = some ((digitsVal ['5', '0', '0'] : ℚ) / 100) := rfl
  have hd1 : digitsVal ['5', '0', '0'] = 500 := by decide
  have hd2 : digitsVal ['5'] = 5 := by decide
  have hd3 : digitsVal ['4'] = 4 := by decide
  rw [h500, h54, happ, hd1, hd2, hd3]
  norm_num

/-! ### Claim C3 — the output cap -/

/-- **C3 counterexample.**  The claim says the buffer never exceeds the
*configured* line cap; the code floors the cap at 50
(`task_output_lines_limit.max(50)`), so with the cap configured to 1 a
second append leaves a buffer of 2 lines. -/
theorem C3_counterexample :
    ((append_output 1 0 "b"
        { tasks := [{ Task.new 0 TaskType.Install "foo" with
                      output := ["a"], status := TaskStatus.Running }]
          next_id := 1
          cancel_requested := ∅ }).tasks.map (fun t => t.output)) = [["a", "b"]] ∧
    ¬ ([("a" : String), "b"].length ≤ 1) := by
  constructor
  · decide
  · decide

/-- **C3 (amended).**  After every append the task's output buffer holds at
most `max cap 50` lines — the configured cap floored at 50 — and equals the
suffix of most recent lines, in append order, of the old buffer extended
with the new line (truncation, when it happens, drops exactly the oldest
lines).  Queue-level: every task after an `append_output` either satisfies
the bound or is untouched. -/
theorem C3_output_cap (cap : Nat) (line : String) (t : Task) (task_id : Nat)
    (s : TaskQueue) :
    (appendLine cap line t).output.length ≤ max cap 50 ∧
    (appendLine cap line t).output
      = (t.output ++ [line]).drop (t.output.length + 1 - max cap 50) ∧
    (∀ u ∈ (append_output cap task_id line s).tasks,
        u.output.length ≤ max cap 50 ∨ u ∈ s.tasks) := by
  have hlen : (t.output ++ [line]).length = t.output.length + 1 := by simp
  have hmain : ∀ (u : Task),
      (appendLine cap line u).output.length ≤ max cap 50 ∧
      (appendLine cap line u).output
        = (u.output ++ [line]).drop (u.output.length + 1 - max cap 50) := by
    intro u
    have hlu : (u.output ++ [line]).length = u.output.length + 1 := by simp
    constructor
    · rw [appendLine_output]
      split
      · rename_i hgt
        rw [List.length_drop]
        omega
      · rename_i hle
        omega
    · rw [appendLine_output]
      split
      · rename_i hgt
        rw [hlu]
      · rename_i hle
        have h0 : u.output.length + 1 - max cap 50 = 0 := by
          rw [hlu] at hle
          omega
        rw [h0, List.drop_zero]
  refine ⟨(hmain t).1, (hmain t).2, ?_⟩
  intro u hu
  simp only [append_output] at hu
  rcases mem_modifyFirst _ _ hu with h1 | ⟨b, _, rfl⟩
  · exact Or.inr h1
  · exact Or.inl (hmain b).1

/-! ### Claim C2 — claiming the head-most queued task -/

/-- **C2.**  With no `Queued` task, `claim_next_queued_task` returns nothing
and changes nothing.  With at least one, it picks the head-most `Queued`
task (the first in queue order), stamps `started_at` with the sampled
clock, sets phase to "Preparing", clears `finished_at`, marks it `Running`,
returns that updated task, and touches nothing else in the queue. -/
theorem C2_claim_semantics (now : Nat) (s : TaskQueue) :
    ((∀ t ∈ s.tasks, t.status ≠ TaskStatus.Queued) →
      claim_next_queued_task now s = (none, s)) ∧
    (∀ (pre : List Task) (t : Task) (post : List Task),
      s.tasks = pre ++ t :: post →
      (∀ u ∈ pre, u.status ≠ TaskStatus.Queued) →
      t.status = TaskStatus.Queued →
      claim_next_queued_task now s =
        (some { t with
                  started_at_unix := some now
                  phase := some "Preparing"
                  finished_at_unix := none
                  status := TaskStatus.Running },
         { s with tasks := pre ++ { t with
                  started_at_unix := some now
                  phase := some "Preparing"
                  finished_at_unix := none
                  status := TaskStatus.Running } :: post })) := by
  constructor
  · intro hq
    have hfind : s.tasks.find? (fun t => t.status == TaskStatus.Queued) = none := by
      rw [List.find?_eq_none]
      intro x hx
      simp [hq x hx]
    simp [claim_next_queued_task, hfind]
  · intro pre t post hts hpre hq
    have hfind : s.tasks.find? (fun u => u.status == TaskStatus.Queued) = some t := by
      rw [hts]
      exact find?_append_cons _ post (by simp [hq]) pre (fun u hu => by simp [hpre u hu])
    have hmod : modifyFirst (fun u => u.status == TaskStatus.Queued) (claimFields now)
        s.tasks = pre ++ claimFields now t :: post := by
      rw [hts]
      exact modifyFirst_append_cons _ _ post (by simp [hq]) pre
        (fun u hu => by simp [hpre u hu])
    simp [claim_next_queued_task, hfind, hmod, claimFields]

/-- Witness for C2 at a concrete queue: a Completed task at the head is
skipped, the first Queued task (id 1) is claimed and stamped. -/
theorem C2_claim_semantics_witness :
    claim_next_queued_task 7
      { tasks := [{ Task.new 0 TaskType.Install "foo" with status := TaskStatus.Completed },
                  Task.new 1 TaskType.Remove "bar",
                  Task.new 2 TaskType.Install "baz"]
        next_id := 3
        cancel_requested := ∅ } =
    (some { Task.new 1 TaskType.Remove "bar" with
              started_at_unix := some 7
              phase := some "Preparing"
              finished_at_unix := none
              status := TaskStatus.Running },
     { tasks := [{ Task.new 0 TaskType.Install "foo" with status := TaskStatus.Completed },
                 { Task.new 1 TaskType.Remove "bar" with
                     started_at_unix := some 7
                     phase := some "Preparing"
                     finished_at_unix := none
                     status := TaskStatus.Running },
                 Task.new 2 TaskType.Install "baz"]
       next_id := 3
       cancel_requested := ∅ }) := by
  have h := (C2_claim_semantics 7
    { tasks := [{ Task.new 0 TaskType.Install "foo" with status := TaskStatus.Completed },
                Task.new 1 TaskType.Remove "bar",
                Task.new 2 TaskType.Install "baz"]
      next_id := 3
      cancel_requested := ∅ }).2
    [{ Task.new 0 TaskType.Install "foo" with status := TaskStatus.Completed }]
    (Task.new 1 TaskType.Remove "bar")
    [Task.new 2 TaskType.Install "baz"]
    rfl (by decide) rfl
  exact h

theorem statusFields_status (now : Nat) (st : TaskStatus) (t : Task) :
    (statusFields now st t).status = st := by
  unfold statusFields
  by_cases h1 : st = TaskStatus.Running
  · simp [h1]
  · by_cases h2 : isTerminal st <;> simp [h1, h2]

/-! ### Claim C7 — wrong-state management operations are no-op failures -/

/-- **C7.**  Every management operation is a total function returning a
success flag, never an abnormal failure; invoked on an id with no task in
that operation's expected state it returns `false` and leaves the whole
queue state — task list and pending-cancellation set — unchanged.  The
expected state is per-operation: no `Queued` task with the id for the
three reorder operations and cancel-queued (so in particular they are
no-op failures on a `Running` task), no `Running` task with the id for
request-cancel (so it is a no-op failure on a `Queued` task). -/
theorem C7_wrong_state_noop (cap task_id : Nat) (s : TaskQueue) :
    ((∀ t ∈ s.tasks, t.id = task_id → t.status ≠ TaskStatus.Queued) →
      move_queued_task_up task_id s = (false, s) ∧
      move_queued_task_down task_id s = (false, s) ∧
      run_queued_task_now task_id s = (false, s) ∧
      cancel_queued_task task_id s = (false, s)) ∧
    ((∀ t ∈ s.tasks, t.id = task_id → t.status ≠ TaskStatus.Running) →
      request_cancel cap task_id s = (false, s)) := by
  constructor
  · intro hq
    have hpq : ∀ t ∈ s.tasks,
        (t.id == task_id && t.status == TaskStatus.Queued) = false := by
      intro t ht
      by_cases hid : t.id = task_id
      · simp [hid, hq t ht hid]
      · simp [hid]
    have hfq : firstIdx? (fun t => t.id == task_id && t.status == TaskStatus.Queued)
        s.tasks = none := firstIdx?_eq_none _ hpq
    refine ⟨?_, ?_, ?_, ?_⟩
    · simp [move_queued_task_up, hfq]
    · simp [move_queued_task_down, hfq]
    · simp [run_queued_task_now, hfq]
    · have hfil : s.tasks.filter
          (fun t => !(t.id == task_id && t.status == TaskStatus.Queued)) = s.tasks := by
        rw [List.filter_eq_self]
        intro t ht
        simp [hpq t ht]
      unfold cancel_queued_task
      rw [hfil]
      simp only [bne_self_eq_false]
  · intro hr
    have hany : s.tasks.any
        (fun t => t.id == task_id && t.status == TaskStatus.Running) = false := by
      rw [List.any_eq_false]
      intro t ht
      by_cases hid : t.id = task_id
      · simp [hid, hr t ht hid]
      · simp [hid]
    simp [request_cancel, hany]

/-- Witness for C7, exercising the claim's central wrong-state cases: the
three reorder operations and cancel-queued invoked on a `Running` task
(id 0) all fail without touching the state, and request-cancel invoked on
a `Queued` task (id 0) fails without touching the state. -/
theorem C7_wrong_state_noop_witness :
    (move_queued_task_up 0
      { tasks := [{ Task.new 0 TaskType.Install "foo" with status := TaskStatus.Running }],
        next_id := 1, cancel_requested := ∅ }
      = (false,
        { tasks := [{ Task.new 0 TaskType.Install "foo" with status := TaskStatus.Running }],
          next_id := 1, cancel_requested := ∅ }) ∧
    move_queued_task_down 0
      { tasks := [{ Task.new 0 TaskType.Install "foo" with status := TaskStatus.Running }],
        next_id := 1, cancel_requested := ∅ }
      = (false,
        { tasks := [{ Task.new 0 TaskType.Install "foo" with status := TaskStatus.Running }],
          next_id := 1, cancel_requested := ∅ }) ∧
    run_queued_task_now 0
      { tasks := [{ Task.new 0 TaskType.Install "foo" with status := TaskStatus.Running }],
        next_id := 1, cancel_requested := ∅ }
      = (false,
        { tasks := [{ Task.new 0 TaskType.Install "foo" with status := TaskStatus.Running }],
          next_id := 1, cancel_requested := ∅ }) ∧
    cancel_queued_task 0
      { tasks := [{ Task.new 0 TaskType.Install "foo" with status := TaskStatus.Running }],
        next_id := 1, cancel_requested := ∅ }
      = (false,
        { tasks := [{ Task.new 0 TaskType.Install "foo" with status := TaskStatus.Running }],
          next_id := 1, cancel_requested := ∅ })) ∧
    request_cancel 100 0
      { tasks := [Task.new 0 TaskType.Install "foo"],
        next_id := 1, cancel_requested := ∅ }
      = (false,
        { tasks := [Task.new 0 TaskType.Install "foo"],
          next_id := 1, cancel_requested := ∅ }) :=
  ⟨(C7_wrong_state_noop 100 0
      { tasks := [{ Task.new 0 TaskType.Install "foo" with status := TaskStatus.Running }],
        next_id := 1, cancel_requested := ∅ }).1 (by decide),
   (C7_wrong_state_noop 100 0
      { tasks := [Task.new 0 TaskType.Install "foo"],
        next_id := 1, cancel_requested := ∅ }).2 (by decide)⟩

/-! ### Claim C10 — run-now on the already-frontmost queued task -/

/-- **C10.**  `run_queued_task_now` on the task that already is the
head-most `Queued` task returns `false` and leaves the queue unchanged, so
a `false` return does not imply the task failed to be frontmost. -/
theorem C10_run_now_frontmost (task_id : Nat) (s : TaskQueue) (pre : List Task)
    (t : Task) (post : List Task)
    (hts : s.tasks = pre ++ t :: post)
    (hpre : ∀ u ∈ pre, u.status ≠ TaskStatus.Queued)
    (hid : t.id = task_id) (hq : t.status = TaskStatus.Queued) :
    run_queued_task_now task_id s = (false, s) := by
  have h1 : firstIdx? (fun u => u.id == task_id && u.status == TaskStatus.Queued)
      s.tasks = some pre.length := by
    rw [hts]
    exact firstIdx?_append_cons _ post (by simp [hid, hq]) pre
      (fun u hu => by simp [hpre u hu])
  have h2 : firstIdx? (fun u => u.status == TaskStatus.Queued) s.tasks
      = some pre.length := by
    rw [hts]
    exact firstIdx?_append_cons _ post (by simp [hq]) pre
      (fun u hu => by simp [hpre u hu])
  simp [run_queued_task_now, h1, h2]

/-- Witness for C10: a queue whose single task is Queued with id 0;
run-now on id 0 returns false and changes nothing. -/
theorem C10_run_now_frontmost_witness :
    run_queued_task_now 0
      { tasks := [Task.new 0 TaskType.Install "foo"],
        next_id := 1, cancel_requested := ∅ }
      = (false,
        { tasks := [Task.new 0 TaskType.Install "foo"],
          next_id := 1, cancel_requested := ∅ }) :=
  C10_run_now_frontmost 0
    { tasks := [Task.new 0 TaskType.Install "foo"],
      next_id := 1, cancel_requested := ∅ }
    [] (Task.new 0 TaskType.Install "foo") [] rfl (by decide) rfl rfl

/-! ### Claim C9 — reorder operations only permute -/

/-- **C9.**  The three reorder operations only permute the task list: the
resulting list is a permutation of the original (so the multiset of task
records — each with its id, kind, target, status, output, progress, phase
and timestamps — is preserved element-for-element unchanged), and the id
allocator and pending-cancellation set are untouched.  This holds for the
success and the failure outcome alike. -/
theorem C9_reorder_frame (task_id : Nat) (s : TaskQueue) :
    (List.Perm (move_queued_task_up task_id s).2.tasks s.tasks ∧
      (move_queued_task_up task_id s).2.next_id = s.next_id ∧
      (move_queued_task_up task_id s).2.cancel_requested = s.cancel_requested) ∧
    (List.Perm (move_queued_task_down task_id s).2.tasks s.tasks ∧
      (move_queued_task_down task_id s).2.next_id = s.next_id ∧
      (move_queued_task_down task_id s).2.cancel_requested = s.cancel_requested) ∧
    (List.Perm (run_queued_task_now task_id s).2.tasks s.tasks ∧
      (run_queued_task_now task_id s).2.next_id = s.next_id ∧
      (run_queued_task_now task_id s).2.cancel_requested = s.cancel_requested) := by
  refine ⟨⟨?_, ?_, ?_⟩, ⟨?_, ?_, ?_⟩, ⟨?_, ?_, ?_⟩⟩
  · unfold move_queued_task_up
    repeat' split
    all_goals first
      | exact List.Perm.refl _
      | exact swapAt_perm _ _ _
  · unfold move_queued_task_up
    repeat' split
    all_goals rfl
  · unfold move_queued_task_up
    repeat' split
    all_goals rfl
  · unfold move_queued_task_down
    repeat' split
    all_goals first
      | exact List.Perm.refl _
      | exact swapAt_perm _ _ _
  · unfold move_queued_task_down
    repeat' split
    all_goals rfl
  · unfold move_queued_task_down
    repeat' split
    all_goals rfl
  · unfold run_queued_task_now
    repeat' split
    all_goals first
      | exact List.Perm.refl _
      | (rename_i t heq
         exact (insertAt_perm _ _ _).trans (eraseAt_cons_perm heq))
  · unfold run_queued_task_now
    repeat' split
    all_goals rfl
  · unfold run_queued_task_now
    repeat' split
    all_goals rfl

/-! ### Claim C8 — retry semantics -/

/-- **C8.**  On the id of a `Failed` task, `retry_failed_task` appends a
fresh `Queued` task carrying a brand-new id (the allocator value, distinct
from the failed id by the id invariant) with the same kind and target,
leaving every existing task — the `Failed` original included — exactly in
place; on an id whose first matching task is not `Failed`, or with no
matching task, it returns nothing and changes nothing. -/
theorem C8_retry (task_id : Nat) (s : TaskQueue) (hInv : Inv s) :
    (∀ (t : Task) (msg : String),
      s.tasks.find? (fun u => u.id == task_id) = some t →
      t.status = TaskStatus.Failed msg →
      retry_failed_task task_id s =
        (some s.next_id,
         { s with
             next_id := s.next_id + 1
             tasks := s.tasks ++ [Task.new s.next_id t.task_type t.package_name] }) ∧
      s.next_id ≠ task_id ∧
      (Task.new s.next_id t.task_type t.package_name).status = TaskStatus.Queued) ∧
    ((∀ u ∈ s.tasks, u.id = task_id → isFailed u.status = false) →
      retry_failed_task task_id s = (none, s)) := by
  constructor
  · intro t msg hfind hst
    refine ⟨?_, ?_, rfl⟩
    · simp [retry_failed_task, hfind, hst, add_task]
    · have ht : t ∈ s.tasks := List.mem_of_find?_eq_some hfind
      have hida := @List.find?_some Task (fun u => u.id == task_id) t s.tasks hfind
      have hid : t.id = task_id := by simpa using hida
      have hlt := hInv t ht
      omega
  · intro hnf
    cases hfind : s.tasks.find? (fun u => u.id == task_id) with
    | none => simp [retry_failed_task, hfind]
    | some t =>
      have ht : t ∈ s.tasks := List.mem_of_find?_eq_some hfind
      have hida := @List.find?_some Task (fun u => u.id == task_id) t s.tasks hfind
      have hid : t.id = task_id := by simpa using hida
      have hF := hnf t ht hid
      cases hstatus : t.status with
      | Failed msg =>
        rw [hstatus] at hF
        simp [isFailed] at hF
      | Queued => simp [retry_failed_task, hfind, hstatus]
      | Running => simp [retry_failed_task, hfind, hstatus]
      | Completed => simp [retry_failed_task, hfind, hstatus]
      | Canceled => simp [retry_failed_task, hfind, hstatus]

/-- Witness for C8: retrying the Failed task with id 0 yields the new id 1
and appends a fresh Queued Install task for the same package. -/
theorem C8_retry_witness :
    retry_failed_task 0
      { tasks := [{ Task.new 0 TaskType.Install "foo" with
                    status := TaskStatus.Failed "boom" }],
        next_id := 1, cancel_requested := ∅ } =
      (some 1,
       { tasks := [{ Task.new 0 TaskType.Install "foo" with
                     status := TaskStatus.Failed "boom" },
                   Task.new 1 TaskType.Install "foo"],
         next_id := 2, cancel_requested := ∅ }) ∧ (1 : Nat) ≠ 0 := by
  have h := (C8_retry 0
    { tasks := [{ Task.new 0 TaskType.Install "foo" with
                  status := TaskStatus.Failed "boom" }],
      next_id := 1, cancel_requested := ∅ } (by decide)).1
    { Task.new 0 TaskType.Install "foo" with status := TaskStatus.Failed "boom" }
    "boom" rfl rfl
  exact ⟨h.1, h.2.1⟩

/-! ### Claim C6 — id allocation -/

/-- **C6.**  The id returned by an enqueue is the allocator value, the
allocator only ever grows, and every task id in the queue stays below it;
hence two enqueues separated by an arbitrary sequence of queue operations
(including retries, which allocate through the same path) return strictly
increasing ids, and a fresh id never collides with the id of any task
present in the queue. -/
theorem C6_ids (s : TaskQueue) (hInv : Inv s) (mid : List QOp)
    (tt1 tt2 : TaskType) (n1 n2 : String) :
    (add_task s tt1 n1).1 <
      (add_task (mid.foldl (fun st op => applyOp op st) (add_task s tt1 n1).2)
        tt2 n2).1 ∧
    ∀ u ∈ (mid.foldl (fun st op => applyOp op st) (add_task s tt1 n1).2).tasks,
      (add_task (mid.foldl (fun st op => applyOp op st) (add_task s tt1 n1).2)
        tt2 n2).1 ≠ u.id := by
  have h1 : (add_task s tt1 n1).1 = s.next_id := rfl
  have h2 : (add_task s tt1 n1).2.next_id = s.next_id + 1 := rfl
  have h3 : (add_task s tt1 n1).2.next_id ≤
      (mid.foldl (fun st op => applyOp op st) (add_task s tt1 n1).2).next_id :=
    foldl_next_id_le mid (add_task s tt1 n1).2
  have h4 : (add_task (mid.foldl (fun st op => applyOp op st) (add_task s tt1 n1).2)
      tt2 n2).1
      = (mid.foldl (fun st op => applyOp op st) (add_task s tt1 n1).2).next_id := rfl
  have hInv2 : Inv (mid.foldl (fun st op => applyOp op st) (add_task s tt1 n1).2) :=
    foldl_inv mid (add_task_inv tt1 n1 hInv)
  constructor
  · rw [h1, h4]
    omega
  · intro u hu
    have hlt := hInv2 u hu
    rw [h4]
    omega

/-- Witness for C6: starting from the empty queue, enqueue, then a retry
and a claim, then enqueue again — the two returned ids are 0 < 1 and the
second is fresh. -/
theorem C6_ids_witness :
    (add_task TaskQueue.new TaskType.Install "foo").1 <
      (add_task ([QOp.retry 0, QOp.claim 5].foldl (fun st op => applyOp op st)
        (add_task TaskQueue.new TaskType.Install "foo").2) TaskType.Remove "bar").1 ∧
    ∀ u ∈ ([QOp.retry 0, QOp.claim 5].foldl (fun st op => applyOp op st)
        (add_task TaskQueue.new TaskType.Install "foo").2).tasks,
      (add_task ([QOp.retry 0, QOp.claim 5].foldl (fun st op => applyOp op st)
        (add_task TaskQueue.new TaskType.Install "foo").2) TaskType.Remove "bar").1
        ≠ u.id :=
  C6_ids TaskQueue.new (by decide) [QOp.retry 0, QOp.claim 5]
    TaskType.Install TaskType.Remove "foo" "bar"

/-! ### Claim C1 — cancellation precedence

The trace records the values the engine's `cancel_requested` closure
returned at the top of each poll iteration; the pending-cancellation set at
finalize time reflects every `request_cancel` that landed before the
worker's `take_cancel_request` ran.  A request that lands between the last
poll's check and the finalize step is therefore pending at finalize without
having been observed by any poll. -/

/-- **C1 counterexample.**  The claim says any execution thread finishing
while a cancellation is pending finalizes `Canceled` with the cancellation
consumed.  But the worker only consults the pending set on the error path:
if the child exits successfully and `try_wait` reports it in an iteration
whose cancellation check ran before the request landed (the request lands
between that check and the finalize), the poll loop returns success, the
task finalizes `Completed` — not `Canceled` — and the pending cancellation
is never consumed. -/
theorem C1_counterexample :
    runLoop [{ cancel := false, wait := WaitObs.exited true }] = some (Except.ok ()) ∧
    (0 : Nat) ∈
      ({ tasks := [{ Task.new 0 TaskType.Update "system" with
                     status := TaskStatus.Running }],
         next_id := 1, cancel_requested := {0} } : TaskQueue).cancel_requested ∧
    statusOf (worker_finalize 9 0 (Except.ok ())
      { tasks := [{ Task.new 0 TaskType.Update "system" with
                    status := TaskStatus.Running }],
        next_id := 1, cancel_requested := {0} }) 0 = some TaskStatus.Completed ∧
    some TaskStatus.Completed ≠ some TaskStatus.Canceled ∧
    (0 : Nat) ∈ (worker_finalize 9 0 (Except.ok ())
      { tasks := [{ Task.new 0 TaskType.Update "system" with
                    status := TaskStatus.Running }],
        next_id := 1, cancel_requested := {0} }).cancel_requested := by
  refine ⟨rfl, by decide, by decide, by decide, by decide⟩

/-- **C1 (amended).**  Whenever the poll loop observes the pending
cancellation — the request became visible at the top of some iteration
before an exit was detected — the execution result is the cancellation
error regardless of the subprocess exit outcome at that iteration; and
whenever the execution thread finishes with an error result while a
cancellation is pending, finalization consumes the pending cancellation
exactly once and sets the status to `Canceled`, never `Failed`.  (Only a
success result detected before the request becomes visible escapes to
`Completed`; see the counterexample.) -/
theorem C1_cancel_precedence (pre post : List PollObs) (o : PollObs) (e : String)
    (now task_id : Nat) (s : TaskQueue) (t : Task)
    (hpre : ∀ p ∈ pre, p.cancel = false ∧ p.wait = WaitObs.running)
    (ho : o.cancel = true)
    (hpend : task_id ∈ s.cancel_requested)
    (hfind : s.tasks.find? (fun u => u.id == task_id) = some t) :
    runLoop (pre ++ o :: post) = some (Except.error "Task canceled by user") ∧
    (take_cancel_request task_id s).1 = true ∧
    statusOf (worker_finalize now task_id (Except.error e) s) task_id
      = some TaskStatus.Canceled ∧
    (∀ m, statusOf (worker_finalize now task_id (Except.error e) s) task_id
      ≠ some (TaskStatus.Failed m)) ∧
    task_id ∉ (worker_finalize now task_id (Except.error e) s).cancel_requested := by
  have hrl : ∀ (pr : List PollObs),
      (∀ p ∈ pr, p.cancel = false ∧ p.wait = WaitObs.running) →
      runLoop (pr ++ o :: post) = some (Except.error "Task canceled by user") := by
    intro pr
    induction pr with
    | nil =>
      intro _
      simp [runLoop, ho]
    | cons q pr ih =>
      intro hp
      have hq := hp q (List.mem_cons_self q pr)
      simp only [List.cons_append, runLoop, hq.1, Bool.false_eq_true, if_false, hq.2]
      exact ih (fun r hr => hp r (List.mem_cons_of_mem q hr))
  have hfe : worker_finalize now task_id (Except.error e) s
      = update_task_status now task_id TaskStatus.Canceled
          { s with cancel_requested := s.cancel_requested.erase task_id } := by
    simp [worker_finalize, take_cancel_request, hpend]
  have hida := @List.find?_some Task (fun u => u.id == task_id) t s.tasks hfind
  have hp2 : (fun (u : Task) => u.id == task_id)
      (statusFields now TaskStatus.Canceled t) = true := by
    simpa [statusFields_id] using hida
  have hfind2 : (modifyFirst (fun u => u.id == task_id)
        (statusFields now TaskStatus.Canceled) s.tasks).find?
      (fun u => u.id == task_id)
      = some (statusFields now TaskStatus.Canceled t) :=
    find?_modifyFirst _ _ hfind hp2
  have hstat : statusOf (worker_finalize now task_id (Except.error e) s) task_id
      = some TaskStatus.Canceled := by
    rw [hfe]
    simp only [statusOf, update_task_status]
    rw [hfind2]
    simp [statusFields_status]
  refine ⟨hrl pre hpre, by simp [take_cancel_request, hpend], hstat, ?_, ?_⟩
  · intro m
    rw [hstat]
    simp
  · rw [hfe]
    simp only [update_task_status]
    exact Finset.not_mem_erase _ _

/-- Witness for C1: one quiet poll, then the cancellation is observed with
the child simultaneously exited successfully; the run reports the
cancellation error, and finalizing the error for task 0 with the
cancellation pending yields `Canceled`, not `Failed`, and empties the
pending set. -/
theorem C1_cancel_precedence_witness :
    runLoop [{ cancel := false, wait := WaitObs.running },
             { cancel := true, wait := WaitObs.exited true }]
      = some (Except.error "Task canceled by user") ∧
    (take_cancel_request 0
      { tasks := [{ Task.new 0 TaskType.Update "system" with
                    status := TaskStatus.Running }],
        next_id := 1, cancel_requested := {0} }).1 = true ∧
    statusOf (worker_finalize 9 0 (Except.error "Task canceled by user")
      { tasks := [{ Task.new 0 TaskType.Update "system" with
                    status := TaskStatus.Running }],
        next_id := 1, cancel_requested := {0} }) 0 = some TaskStatus.Canceled ∧
    (∀ m, statusOf (worker_finalize 9 0 (Except.error "Task canceled by user")
      { tasks := [{ Task.new 0 TaskType.Update "system" with
                    status := TaskStatus.Running }],
        next_id := 1, cancel_requested := {0} }) 0 ≠ some (TaskStatus.Failed m)) ∧
    (0 : Nat) ∉ (worker_finalize 9 0 (Except.error "Task canceled by user")
      { tasks := [{ Task.new 0 TaskType.Update "system" with
                    status := TaskStatus.Running }],
        next_id := 1, cancel_requested := {0} }).cancel_requested :=
  C1_cancel_precedence [{ cancel := false, wait := WaitObs.running }] []
    { cancel := true, wait := WaitObs.exited true } "Task canceled by user" 9 0
    { tasks := [{ Task.new 0 TaskType.Update "system" with
                  status := TaskStatus.Running }],
      next_id := 1, cancel_requested := {0} }
    { Task.new 0 TaskType.Update "system" with status := TaskStatus.Running }
    (by decide) rfl (by decide) rfl

end Parut
